import Mathlib

/-!
Shallow embedding of the metrics/correlation core of the S&P 500 tech
volatility dashboard (`src/app.py`).

Modelling conventions:
* A pandas column over the shared trading-date index is `List (Option ℚ)`;
  `none` models a NaN cell (missing data), positions model dates.
* The multi-ticker price table (`yf.download` result) is an association
  list from ticker symbol to its per-ticker sub-frame; a sub-frame carries
  its `Close` column plus the remaining OHLC columns.
* Float arithmetic is idealised as exact arithmetic: rational values for
  the computable parts, real values where a square root is taken
  (`Series.rolling(...).std()`, `DataFrame.corr()`).
* A pandas operation that raises (out-of-range positional index) or
  yields NaN is modelled with `Option`.
-/

namespace VolDash

/-- A column of a pandas DataFrame over the shared date index;
`none` is a NaN cell. -/
abbrev Col := List (Option ℚ)

/-- Per-ticker sub-frame of the downloaded table (`df[ticker]`): its
`Close` column and the remaining input columns (Open, High, Low, ...). -/
structure TickerFrame where
  close : Col
  otherCols : List (String × Col)
deriving DecidableEq

/-- The multi-ticker price table returned by the data provider, keyed by
ticker symbol (top level of the yfinance MultiIndex columns). -/
abbrev PriceTable := List (String × TickerFrame)

/-- Association-list lookup used to model both `df[ticker]` access and
`ticker in df.columns` membership. -/
def lookupKey (k : String) : List (String × α) → Option α
  | [] => none
  | p :: rest => if p.1 = k then some p.2 else lookupKey k rest

/-- The ticker universe from `app.py` (`TECH_TICKERS`). -/
def TECH_TICKERS : List String :=
  ["AAPL", "MSFT", "NVDA", "GOOGL", "AMZN", "META", "TSLA",
   "AMD", "INTC", "CRM", "ORCL", "ADBE", "CSCO", "NFLX", "IBM"]

/-- One step of `Series.pct_change()`: given the previous and current
cell, the current return; NaN if either cell is missing. -/
def retDiv (a b : Option ℚ) : Option ℚ :=
  match a, b with
  | some x, some y => some (y / x - 1)
  | _, _ => none

/-- `Series.pct_change()`: the first cell is NaN, cell `i` (for `i ≥ 1`)
is `close[i] / close[i-1] - 1` when both closes are present. -/
def pct_change : Col → Col
  | [] => []
  | x :: xs => none :: List.zipWith retDiv (x :: xs) xs

/-- Collects a list of cells into a defined window: `some` of the values
when every cell is present, `none` when any cell is NaN. -/
def seqOpt : List (Option ℚ) → Option (List ℚ)
  | [] => some []
  | none :: _ => none
  | some a :: rest => (seqOpt rest).map (fun l => a :: l)

/-- The trailing window of `Series.rolling(window := w)` at position `i`:
the `w` cells ending at and including `i`, required to be fully present
(pandas default `min_periods = window`); `none` (NaN output) otherwise. -/
def windowAt (xs : Col) (w i : Nat) : Option (List ℚ) :=
  if w ≤ i + 1 ∧ i < xs.length then seqOpt ((xs.drop (i + 1 - w)).take w)
  else none

/-- Arithmetic mean of a list of rationals (0 on the empty list, matching
`x / 0 = 0`). -/
def mean (xs : List ℚ) : ℚ := xs.sum / xs.length

/-- Deviations from the mean. -/
def devs (xs : List ℚ) : List ℚ := xs.map (fun x => x - mean xs)

/-- Sum of squared deviations from the mean. -/
def ssd (xs : List ℚ) : ℚ := ((devs xs).map (fun d => d ^ 2)).sum

/-- Sample variance: sum of squared deviations over `n - 1`
(pandas `ddof = 1`). -/
def sampleVar (xs : List ℚ) : ℚ := ssd xs / ((xs.length : ℚ) - 1)

/-- Sum of cross products of deviations of two aligned series. -/
def sxy (xs ys : List ℚ) : ℚ :=
  (List.zipWith (fun a b => a * b) (devs xs) (devs ys)).sum

/-- Sample standard deviation (`Series.std()`, `ddof = 1`). -/
noncomputable def sampleStd (xs : List ℚ) : ℝ :=
  Real.sqrt ((sampleVar xs : ℚ) : ℝ)

/-- `Series.rolling(window := w).mean()`. -/
def rolling_mean (w : Nat) (xs : Col) : Col :=
  (List.range xs.length).map (fun i => (windowAt xs w i).map mean)

/-- `Series.rolling(window := w).std()`. -/
noncomputable def rolling_std (w : Nat) (xs : Col) : List (Option ℝ) :=
  (List.range xs.length).map (fun i => (windowAt xs w i).map sampleStd)

/-- Result frame of `calculate_metrics`: the input columns of the
selected ticker's sub-frame plus the four derived columns assigned by
the code (`Daily Return`, `Volatility`, `SMA_50`, `SMA_200`). -/
structure MetricsFrame where
  close : Col
  otherCols : List (String × Col)
  dailyReturn : Col
  volatility : List (Option ℝ)
  sma50 : Col
  sma200 : Col

/-- Body of `calculate_metrics` once `df[ticker]` has succeeded: the
copied sub-frame with the four derived columns added. -/
noncomputable def metricsOf (stock_df : TickerFrame) : MetricsFrame :=
  { close := stock_df.close
    otherCols := stock_df.otherCols
    dailyReturn := pct_change stock_df.close
    volatility :=
      (rolling_std 21 (pct_change stock_df.close)).map
        (Option.map (fun s => s * Real.sqrt 252))
    sma50 := rolling_mean 50 stock_df.close
    sma200 := rolling_mean 200 stock_df.close }

/-- `calculate_metrics(df, ticker)` from `app.py`: `None` when
`df[ticker]` raises `KeyError` (ticker absent), otherwise the sub-frame
with the derived columns. -/
noncomputable def calculate_metrics (df : PriceTable) (ticker : String) :
    Option MetricsFrame :=
  match lookupKey ticker df with
  | none => none
  | some stock_df => some (metricsOf stock_df)

/-- Pandas positional scalar indexing `series.iloc[k]` on a series of
`n` defined values: a negative `k` with `-n ≤ k` reads position `n + k`;
any other out-of-range `k` raises `IndexError` (modelled as `none`).
The index is never wrapped more than once nor clamped. -/
def iloc (xs : List ℚ) (k : Int) : Option ℚ :=
  if 0 ≤ k then xs.get? k.toNat
  else if k.natAbs ≤ xs.length then xs.get? (xs.length - k.natAbs)
  else none

/-- The KPI computation of `main` (line 93 of `app.py`):
`((close.iloc[-1] / close.iloc[-252]) - 1) * 100`; fails (propagates
`IndexError`) when either read is out of range. -/
def one_year_return (close : List ℚ) : Option ℚ :=
  match iloc close (-1), iloc close (-252) with
  | some a, some b => some ((a / b - 1) * 100)
  | _, _ => none

/-- Cell of a column at row `i`: `none` both for a NaN cell and past the
end of the column. -/
def cell (c : Col) (i : Nat) : Option ℚ := (c.get? i).getD none

/-- Keyed column assignment `close_prices[ticker] = series`: overwrites
in place when the key exists, otherwise appends a new column. -/
def upsertCol (m : List (String × Col)) (k : String) (v : Col) :
    List (String × Col) :=
  if (lookupKey k m).isSome then
    m.map (fun p => if p.1 = k then (p.1, v) else p)
  else m ++ [(k, v)]

/-- The loop of `calculate_correlation` building `close_prices`: for each
universe ticker present in `df.columns`, assign the column
`df[ticker]['Close'].pct_change()`; absent tickers are skipped. -/
def buildReturnCols (df : PriceTable) :
    List String → List (String × Col) → List (String × Col)
  | [], acc => acc
  | t :: ts, acc =>
    match lookupKey t df with
    | some f => buildReturnCols df ts (upsertCol acc t (pct_change f.close))
    | none => buildReturnCols df ts acc

/-- Number of rows of the assembled `close_prices` frame (the shared
date index length; 0 when no column was assigned). -/
def nRows : List (String × Col) → Nat
  | [] => 0
  | c :: _ => c.2.length

/-- A row survives `DataFrame.dropna()` exactly when every column has a
present value there. -/
def rowDefinedAt (cols : List (String × Col)) (i : Nat) : Bool :=
  cols.all (fun c => (cell c.2 i).isSome)

/-- Row indices retained by `close_prices.dropna()`. -/
def retainedIdx (cols : List (String × Col)) : List Nat :=
  (List.range (nRows cols)).filter (fun i => rowDefinedAt cols i)

/-- A column restricted to the retained rows (its values on the dates
where every included ticker has a defined return). -/
def restrictCol (cols : List (String × Col)) (c : Col) : List ℚ :=
  (retainedIdx cols).map (fun i => (cell c i).getD 0)

/-- One entry of pandas `DataFrame.corr()` over two aligned fully-defined
series: `Σ dx·dy / √(Σ dx² · Σ dy²)` when both sums of squared deviations
are nonzero, NaN otherwise (zero variance, fewer than two rows, or no
rows at all). -/
noncomputable def corrEntry (xs ys : List ℚ) : Option ℝ :=
  if ssd xs ≠ 0 ∧ ssd ys ≠ 0 then
    some ((sxy xs ys : ℝ) / Real.sqrt (((ssd xs * ssd ys : ℚ) : ℝ)))
  else none

/-- The correlation matrix returned by `DataFrame.corr()`: ticker labels
on both axes and an entry for each pair of positions. -/
structure CorrMatrix where
  names : List String
  entry : Nat → Nat → Option ℝ

/-- `calculate_correlation(df, tickers)` from `app.py`: build the
per-ticker return columns, drop every row with any NaN, and take the
pairwise correlation of the surviving rows. -/
noncomputable def calculate_correlation (df : PriceTable)
    (tickers : List String) : CorrMatrix :=
  let cols := buildReturnCols df tickers []
  { names := cols.map (fun c => c.1)
    entry := fun i j =>
      match cols.get? i, cols.get? j with
      | some ci, some cj =>
        corrEntry (restrictCol cols ci.2) (restrictCol cols cj.2)
      | _, _ => none }

/-- Modelled from the spec (glossary and §4.2): the Pearson correlation
coefficient of two aligned samples, `Σ dx·dy / (√(Σ dx²) · √(Σ dy²))`,
undefined when either series has zero squared deviation. -/
noncomputable def pearson (xs ys : List ℚ) : Option ℝ :=
  if ssd xs ≠ 0 ∧ ssd ys ≠ 0 then
    some ((sxy xs ys : ℝ) /
      (Real.sqrt ((ssd xs : ℚ) : ℝ) * Real.sqrt ((ssd ys : ℚ) : ℝ)))
  else none

/-! ### Basic list lemmas -/

theorem pct_change_length (xs : Col) : (pct_change xs).length = xs.length := by
  cases xs with
  | nil => rfl
  | cons x t => simp [pct_change, List.length_zipWith]

theorem zipWith_get?_some {α β γ : Type} (f : α → β → γ) :
    ∀ (xs : List α) (ys : List β) (i : Nat) (a : α) (b : β),
      xs.get? i = some a → ys.get? i = some b →
      (List.zipWith f xs ys).get? i = some (f a b)
  | [], _, _, _, _, ha, _ => by simp at ha
  | _ :: _, [], _, _, _, _, hb => by simp at hb
  | x :: xs, y :: ys, 0, a, b, ha, hb => by
    simp at ha hb
    simp [List.zipWith, ha, hb]
  | x :: xs, y :: ys, i + 1, a, b, ha, hb => by
    simpa [List.zipWith] using zipWith_get?_some f xs ys i a b ha hb

theorem pct_change_get?_zero (xs : Col) (h : 0 < xs.length) :
    (pct_change xs).get? 0 = some none := by
  cases xs with
  | nil => simp at h
  | cons x t => rfl

theorem pct_change_get?_succ (xs : Col) (i : Nat) (a b : Option ℚ)
    (ha : xs.get? i = some a) (hb : xs.get? (i + 1) = some b) :
    (pct_change xs).get? (i + 1) = some (retDiv a b) := by
  cases xs with
  | nil => simp at ha
  | cons x t =>
    show (List.zipWith retDiv (x :: t) t).get? i = some (retDiv a b)
    exact zipWith_get?_some retDiv (x :: t) t i a b ha hb

theorem seqOpt_map_some (l : List ℚ) : seqOpt (l.map some) = some l := by
  induction l with
  | nil => rfl
  | cons a t ih => simp [seqOpt, ih]

theorem seqOpt_isSome_iff (l : List (Option ℚ)) :
    (seqOpt l).isSome ↔ ∀ o ∈ l, o.isSome := by
  induction l with
  | nil => simp [seqOpt]
  | cons o t ih =>
    cases o with
    | none => simp [seqOpt]
    | some a =>
      cases ht : seqOpt t with
      | none => simp [seqOpt, ht, ← ih]
      | some v => simp [seqOpt, ht, ← ih]

theorem seqOpt_length (l : List (Option ℚ)) (v : List ℚ) (h : seqOpt l = some v) :
    v.length = l.length := by
  induction l generalizing v with
  | nil =>
    simp [seqOpt] at h
    simp [← h]
  | cons o t ih =>
    cases o with
    | none => simp [seqOpt] at h
    | some a =>
      cases ht : seqOpt t with
      | none => rw [seqOpt, ht] at h; simp at h
      | some w =>
        rw [seqOpt, ht] at h
        simp at h
        simp [← h, ih w ht]

theorem windowAt_length (xs : Col) (w i : Nat) (rs : List ℚ)
    (h : windowAt xs w i = some rs) : rs.length = w := by
  rw [windowAt] at h
  split at h
  · rename_i hc
    have hlen := seqOpt_length _ _ h
    rw [hlen, List.length_take, List.length_drop]
    omega
  · simp at h

theorem windowAt_map_some (ps : List ℚ) (w i : Nat) :
    windowAt (ps.map some) w i =
      if w ≤ i + 1 ∧ i < ps.length then some ((ps.drop (i + 1 - w)).take w)
      else none := by
  rw [windowAt, List.length_map, ← List.map_drop, ← List.map_take, seqOpt_map_some]

/-! ### Statistics lemmas -/

theorem ssd_nonneg (xs : List ℚ) : 0 ≤ ssd xs := by
  apply List.sum_nonneg
  intro x hx
  obtain ⟨d, _, rfl⟩ := List.mem_map.mp hx
  exact sq_nonneg d

theorem zipWith_mul_self (l : List ℚ) :
    List.zipWith (fun a b => a * b) l l = l.map (fun d => d ^ 2) := by
  induction l with
  | nil => rfl
  | cons a t ih => simp [List.zipWith, ih, sq]

theorem sxy_self (xs : List ℚ) : sxy xs xs = ssd xs := by
  rw [sxy, ssd, zipWith_mul_self]

theorem sxy_comm (xs ys : List ℚ) : sxy xs ys = sxy ys xs := by
  rw [sxy, sxy, List.zipWith_comm_of_comm _ mul_comm]

theorem sum_getD (xs : List ℚ) :
    xs.sum = ∑ i in Finset.range xs.length, xs.getD i 0 := by
  induction xs with
  | nil => simp
  | cons a t ih =>
    rw [List.sum_cons, List.length_cons, Finset.sum_range_succ']
    simp [ih, add_comm]

theorem getD_zipWith_mul :
    ∀ (xs ys : List ℚ) (i : Nat), i < xs.length → i < ys.length →
      (List.zipWith (fun a b => a * b) xs ys).getD i 0 =
        xs.getD i 0 * ys.getD i 0
  | [], _, _, hx, _ => by simp at hx
  | _ :: _, [], _, _, hy => by simp at hy
  | x :: xs, y :: ys, 0, _, _ => by simp [List.zipWith]
  | x :: xs, y :: ys, i + 1, hx, hy => by
    simp only [List.zipWith, List.getD_cons_succ]
    exact getD_zipWith_mul xs ys i (by simpa using hx) (by simpa using hy)

theorem getD_map_sq (xs : List ℚ) (i : Nat) (hx : i < xs.length) :
    (xs.map (fun d => d ^ 2)).getD i 0 = xs.getD i 0 ^ 2 := by
  rw [List.getD_eq_get?, List.getD_eq_get?, List.get?_map,
    List.get?_eq_get hx]
  rfl

theorem ssd_eq_range (xs : List ℚ) :
    ssd xs = ∑ i in Finset.range (devs xs).length, (devs xs).getD i 0 ^ 2 := by
  rw [ssd, sum_getD, List.length_map]
  exact Finset.sum_congr rfl fun i hi =>
    getD_map_sq _ _ (List.mem_range.mp hi)

theorem sq_sxy_le (xs ys : List ℚ) : sxy xs ys ^ 2 ≤ ssd xs * ssd ys := by
  set dx := devs xs with hdx
  set dy := devs ys with hdy
  set m := min dx.length dy.length with hm
  have h1 : sxy xs ys = ∑ i in Finset.range m, dx.getD i 0 * dy.getD i 0 := by
    rw [sxy, ← hdx, ← hdy, sum_getD, List.length_zipWith, ← hm]
    exact Finset.sum_congr rfl fun i hi =>
      getD_zipWith_mul dx dy i (lt_of_lt_of_le (List.mem_range.mp hi) (by omega))
        (lt_of_lt_of_le (List.mem_range.mp hi) (by omega))
  have h4 : ∑ i in Finset.range m, dx.getD i 0 ^ 2 ≤ ssd xs := by
    rw [ssd_eq_range, ← hdx]
    exact Finset.sum_le_sum_of_subset_of_nonneg
      (Finset.range_subset.mpr (by omega)) (fun i _ _ => sq_nonneg _)
  have h5 : ∑ i in Finset.range m, dy.getD i 0 ^ 2 ≤ ssd ys := by
    rw [ssd_eq_range, ← hdy]
    exact Finset.sum_le_sum_of_subset_of_nonneg
      (Finset.range_subset.mpr (by omega)) (fun i _ _ => sq_nonneg _)
  calc sxy xs ys ^ 2
      = (∑ i in Finset.range m, dx.getD i 0 * dy.getD i 0) ^ 2 := by rw [h1]
    _ ≤ (∑ i in Finset.range m, dx.getD i 0 ^ 2) *
          ∑ i in Finset.range m, dy.getD i 0 ^ 2 :=
        Finset.sum_mul_sq_le_sq_mul_sq _ _ _
    _ ≤ ssd xs * ssd ys :=
        mul_le_mul h4 h5 (Finset.sum_nonneg fun i _ => sq_nonneg _)
          (ssd_nonneg xs)

/-! ### Correlation entry lemmas -/

theorem corrEntry_symm (xs ys : List ℚ) : corrEntry xs ys = corrEntry ys xs := by
  rw [corrEntry, corrEntry, sxy_comm, mul_comm (ssd xs)]
  exact if_congr and_comm rfl rfl

theorem corrEntry_diag (xs : List ℚ) (h : ssd xs ≠ 0) :
    corrEntry xs xs = some 1 := by
  rw [corrEntry, if_pos ⟨h, h⟩, sxy_self]
  have hcast : (((ssd xs * ssd xs : ℚ)) : ℝ) = ((ssd xs : ℚ) : ℝ) * ((ssd xs : ℚ) : ℝ) := by
    push_cast
    ring
  rw [hcast, Real.sqrt_mul_self (by exact_mod_cast ssd_nonneg xs)]
  have hne : ((ssd xs : ℚ) : ℝ) ≠ 0 := by exact_mod_cast h
  rw [div_self hne]

theorem corrEntry_bound (xs ys : List ℚ) (v : ℝ)
    (h : corrEntry xs ys = some v) : -1 ≤ v ∧ v ≤ 1 := by
  rw [corrEntry] at h
  split at h
  · rename_i hc
    obtain ⟨hx, hy⟩ := hc
    have hv : v = ((sxy xs ys : ℚ) : ℝ) / Real.sqrt (((ssd xs * ssd ys : ℚ)) : ℝ) := by
      exact (Option.some.injEq _ _).mp h.symm
    have hxpos : 0 < ssd xs := lt_of_le_of_ne (ssd_nonneg xs) (Ne.symm hx)
    have hypos : 0 < ssd ys := lt_of_le_of_ne (ssd_nonneg ys) (Ne.symm hy)
    have hbpos : (0 : ℝ) < (((ssd xs * ssd ys : ℚ)) : ℝ) := by
      exact_mod_cast mul_pos hxpos hypos
    have hsq : (((sxy xs ys : ℚ)) : ℝ) ^ 2 ≤ (((ssd xs * ssd ys : ℚ)) : ℝ) := by
      exact_mod_cast sq_sxy_le xs ys
    have habs : |(((sxy xs ys : ℚ)) : ℝ)| ≤ Real.sqrt (((ssd xs * ssd ys : ℚ)) : ℝ) := by
      rw [← Real.sqrt_sq_eq_abs]
      exact Real.sqrt_le_sqrt hsq
    have hsquot : |v| ≤ 1 := by
      rw [hv, abs_div, abs_of_nonneg (Real.sqrt_nonneg _)]
      exact (div_le_one (Real.sqrt_pos.mpr hbpos)).mpr habs
    exact abs_le.mp hsquot
  · simp at h

theorem corrEntry_eq_pearson (xs ys : List ℚ) :
    corrEntry xs ys = pearson xs ys := by
  rw [corrEntry, pearson]
  refine if_congr Iff.rfl ?_ rfl
  have hcast : (((ssd xs * ssd ys : ℚ)) : ℝ) = ((ssd xs : ℚ) : ℝ) * ((ssd ys : ℚ) : ℝ) := by
    push_cast
    ring
  rw [hcast, Real.sqrt_mul (by exact_mod_cast ssd_nonneg xs)]

/-! ### Lemmas on the correlation frame construction -/

theorem lookupKey_append (k : String) (a b : List (String × Col)) :
    lookupKey k (a ++ b) =
      match lookupKey k a with
      | some v => some v
      | none => lookupKey k b := by
  induction a with
  | nil => simp [lookupKey]
  | cons p t ih =>
    by_cases hp : p.1 = k
    · simp [lookupKey, hp]
    · simp [lookupKey, hp, ih]

theorem upsertCol_of_absent (m : List (String × Col)) (k : String) (v : Col)
    (h : lookupKey k m = none) : upsertCol m k v = m ++ [(k, v)] := by
  rw [upsertCol, h]
  rfl

theorem buildReturnCols_eq (df : PriceTable) :
    ∀ (ts : List String) (acc : List (String × Col)), ts.Nodup →
      (∀ t ∈ ts, lookupKey t acc = none) →
      buildReturnCols df ts acc =
        acc ++ ts.filterMap (fun t =>
          (lookupKey t df).map (fun f => (t, pct_change f.close)))
  | [], acc, _, _ => by simp [buildReturnCols]
  | t :: ts, acc, hnd, hacc => by
    have hnd2 : ts.Nodup := (List.nodup_cons.mp hnd).2
    have htmem : t ∉ ts := (List.nodup_cons.mp hnd).1
    cases hdf : lookupKey t df with
    | none =>
      have hstep : buildReturnCols df (t :: ts) acc = buildReturnCols df ts acc := by
        rw [buildReturnCols, hdf]
      rw [hstep, buildReturnCols_eq df ts acc hnd2
        (fun u hu => hacc u (List.mem_cons_of_mem t hu))]
      simp [List.filterMap_cons, hdf]
    | some f =>
      have hstep : buildReturnCols df (t :: ts) acc =
          buildReturnCols df ts (upsertCol acc t (pct_change f.close)) := by
        rw [buildReturnCols, hdf]
      rw [hstep,
        upsertCol_of_absent acc t _ (hacc t (List.mem_cons_self t ts))]
      rw [buildReturnCols_eq df ts (acc ++ [(t, pct_change f.close)]) hnd2 ?_]
      · simp [List.filterMap_cons, hdf]
      · intro u hu
        rw [lookupKey_append, hacc u (List.mem_cons_of_mem t hu)]
        have hne : ¬ (t = u) := fun he => htmem (he ▸ hu)
        simp [lookupKey, hne]

theorem filterMap_keys (df : PriceTable) (ts : List String) :
    (ts.filterMap (fun t =>
      (lookupKey t df).map (fun f => (t, pct_change f.close)))).map
        (fun c => c.1) =
      ts.filter (fun t => (lookupKey t df).isSome) := by
  induction ts with
  | nil => rfl
  | cons t rest ih =>
    cases hdf : lookupKey t df with
    | none => simp [List.filterMap_cons, hdf, List.filter_cons, ih]
    | some f => simp [List.filterMap_cons, hdf, List.filter_cons, ih]

theorem lookup_filterMap (df : PriceTable) (ts : List String) (t : String)
    (f : TickerFrame) (hmem : t ∈ ts) (hdf : lookupKey t df = some f) :
    lookupKey t (ts.filterMap (fun u =>
      (lookupKey u df).map (fun g => (u, pct_change g.close)))) =
      some (pct_change f.close) := by
  induction ts with
  | nil => simp at hmem
  | cons u rest ih =>
    by_cases hut : u = t
    · subst hut
      simp [List.filterMap_cons, hdf, lookupKey]
    · have hmem2 : t ∈ rest := by
        rcases List.mem_cons.mp hmem with he | hm
        · exact absurd he.symm hut
        · exact hm
      cases hu : lookupKey u df with
      | none => simpa [List.filterMap_cons, hu] using ih hmem2
      | some g =>
        simpa [List.filterMap_cons, hu, lookupKey, hut] using ih hmem2

theorem mem_retainedIdx (cols : List (String × Col)) (i : Nat) :
    i ∈ retainedIdx cols ↔
      i < nRows cols ∧ ∀ c ∈ cols, (cell c.2 i).isSome := by
  simp [retainedIdx, List.mem_filter, List.mem_range, rowDefinedAt,
    List.all_eq_true, and_comm]

/-! ### Rolling-window access lemmas -/

theorem rolling_mean_length (w : Nat) (xs : Col) :
    (rolling_mean w xs).length = xs.length := by
  simp [rolling_mean]

theorem rolling_std_length (w : Nat) (xs : Col) :
    (rolling_std w xs).length = xs.length := by
  simp [rolling_std]

theorem rolling_mean_get? (w : Nat) (xs : Col) (i : Nat) (h : i < xs.length) :
    (rolling_mean w xs).get? i = some ((windowAt xs w i).map mean) := by
  rw [rolling_mean, List.get?_map, List.get?_range h]
  rfl

theorem rolling_std_get? (w : Nat) (xs : Col) (i : Nat) (h : i < xs.length) :
    (rolling_std w xs).get? i = some ((windowAt xs w i).map sampleStd) := by
  rw [rolling_std, List.get?_map, List.get?_range h]
  rfl

theorem volatility_get? (f : TickerFrame) (i : Nat) (h : i < f.close.length) :
    (metricsOf f).volatility.get? i =
      some ((windowAt (pct_change f.close) 21 i).map
        (fun rs => sampleStd rs * Real.sqrt 252)) := by
  have hlen : i < (pct_change f.close).length := by
    rw [pct_change_length]
    exact h
  show ((rolling_std 21 (pct_change f.close)).map
      (Option.map (fun s => s * Real.sqrt 252))).get? i = _
  rw [List.get?_map, rolling_std_get? 21 _ i hlen]
  cases windowAt (pct_change f.close) 21 i with
  | none => rfl
  | some rs => rfl

/-! ### Positional indexing lemmas -/

theorem iloc_neg_oob (xs : List ℚ) (k : Int) (hk : k < 0)
    (h : xs.length < k.natAbs) : iloc xs k = none := by
  rw [iloc, if_neg (by omega), if_neg (by omega)]

theorem iloc_neg_in (xs : List ℚ) (k : Int) (hk : k < 0)
    (h : k.natAbs ≤ xs.length) :
    iloc xs k = xs.get? (xs.length - k.natAbs) := by
  rw [iloc, if_neg (by omega), if_pos h]

theorem rep_get? (a : ℚ) :
    ∀ (n i : Nat), i < n → (List.replicate n a).get? i = some a
  | 0, _, h => absurd h (by omega)
  | n + 1, 0, _ => rfl
  | n + 1, i + 1, h => rep_get? a n i (by omega)

theorem corr_entry_eq (df : PriceTable) (tickers : List String) (i j : Nat)
    (ci cj : String × Col)
    (hi : (buildReturnCols df tickers []).get? i = some ci)
    (hj : (buildReturnCols df tickers []).get? j = some cj) :
    (calculate_correlation df tickers).entry i j =
      corrEntry (restrictCol (buildReturnCols df tickers []) ci.2)
        (restrictCol (buildReturnCols df tickers []) cj.2) := by
  simp only [calculate_correlation]
  rw [hi, hj]

theorem corr_entry_symm_all (df : PriceTable) (tickers : List String)
    (i j : Nat) :
    (calculate_correlation df tickers).entry i j =
      (calculate_correlation df tickers).entry j i := by
  simp only [calculate_correlation]
  cases hi : (buildReturnCols df tickers []).get? i <;>
    cases hj : (buildReturnCols df tickers []).get? j <;>
      simp [hi, hj, corrEntry_symm]

theorem get?_getD (xs : List ℚ) (i : Nat) (h : i < xs.length) :
    xs.get? i = some (xs.getD i 0) := by
  rw [List.getD_eq_get?, List.get?_eq_get h]
  rfl

theorem sma_get? (w : Nat) (f : TickerFrame) (ps : List ℚ) (i : Nat)
    (hc : f.close = ps.map some) (hi : i < ps.length) :
    (rolling_mean w f.close).get? i =
      some (if w ≤ i + 1 then some (mean ((ps.drop (i + 1 - w)).take w))
        else none) := by
  rw [rolling_mean_get? w _ i (by rw [hc, List.length_map]; exact hi), hc,
    windowAt_map_some]
  rw [if_congr (and_iff_left hi) rfl rfl]
  by_cases hw : w ≤ i + 1
  · rw [if_pos hw, if_pos hw]
    rfl
  · rw [if_neg hw, if_neg hw]
    rfl

/-! ### Claims -/

/-- C1 (amended): the point-in-time 1-year-return read
`close.iloc[-1] / close.iloc[-252]` fails explicitly (out-of-range,
modelled `none`) exactly on series with fewer than 252 rows; on longer
series it returns `(close[n-1] / close[n-252] - 1) * 100` — computed from
the in-range offsets, never from a wrapped or clamped index. -/
theorem one_year_return_spec (close : List ℚ) :
    (close.length < 252 → one_year_return close = none) ∧
    (252 ≤ close.length →
      one_year_return close =
        some ((close.getD (close.length - 1) 0 /
          close.getD (close.length - 252) 0 - 1) * 100)) := by
  have hnat1 : ((-1 : Int)).natAbs = 1 := by decide
  have hnat252 : ((-252 : Int)).natAbs = 252 := by decide
  constructor
  · intro h
    have h252 : iloc close (-252) = none :=
      iloc_neg_oob close (-252) (by decide) (by omega)
    rw [one_year_return, h252]
    cases iloc close (-1) <;> rfl
  · intro h
    have e1 : iloc close (-1) = close.get? (close.length - 1) := by
      rw [iloc_neg_in _ _ (by decide) (by omega), hnat1]
    have e2 : iloc close (-252) = close.get? (close.length - 252) := by
      rw [iloc_neg_in _ _ (by decide) (by omega), hnat252]
    have hlt1 : close.length - 1 < close.length := by omega
    have hlt2 : close.length - 252 < close.length := by omega
    have g1 : close.get? (close.length - 1) =
        some (close.getD (close.length - 1) 0) := by
      rw [List.getD_eq_get?, List.get?_eq_get hlt1]
      rfl
    have g2 : close.get? (close.length - 252) =
        some (close.getD (close.length - 252) 0) := by
      rw [List.getD_eq_get?, List.get?_eq_get hlt2]
      rfl
    rw [one_year_return, e1, e2, g1, g2]

theorem one_year_return_spec_w :
    one_year_return (List.replicate 251 (1 : ℚ)) = none ∧
    one_year_return (List.replicate 252 (1 : ℚ)) =
      some (((List.replicate 252 (1 : ℚ)).getD (252 - 1) 0 /
        (List.replicate 252 (1 : ℚ)).getD (252 - 252) 0 - 1) * 100) := by
  refine ⟨(one_year_return_spec _).1 ?_, ?_⟩
  · rw [List.length_replicate]
    omega
  · have h := (one_year_return_spec (List.replicate 252 (1 : ℚ))).2
      (by rw [List.length_replicate])
    rw [List.length_replicate] at h
    exact h

/-- C1 counterexample: a close series of exactly 252 rows — fewer than
the 253 rows the claim requires — does not fail: the code returns the
value 0 for a constant series, computed from `close[251] / close[0]`. -/
theorem one_year_return_252_rows :
    one_year_return (List.replicate 252 (1 : ℚ)) = some 0 := by
  have hlen : (List.replicate 252 (1 : ℚ)).length = 252 :=
    List.length_replicate 252 1
  have e1 : iloc (List.replicate 252 (1 : ℚ)) (-1) = some 1 := by
    rw [iloc_neg_in _ _ (by decide) (by rw [hlen]; decide), hlen]
    have h2 : (252 : Nat) - (-1 : Int).natAbs = 251 := by decide
    rw [h2]
    exact rep_get? 1 252 251 (by omega)
  have e2 : iloc (List.replicate 252 (1 : ℚ)) (-252) = some 1 := by
    rw [iloc_neg_in _ _ (by decide) (by rw [hlen]; decide), hlen]
    have h2 : (252 : Nat) - (-252 : Int).natAbs = 0 := by decide
    rw [h2]
    exact rep_get? 1 252 0 (by omega)
  rw [one_year_return, e1, e2]
  norm_num

/-- C3: `calculate_metrics` returns `None` (the `NotFound` signal, no
partial result) exactly when the ticker is absent from the table, and
the complete per-date metrics frame exactly when it is present. -/
theorem calculate_metrics_notfound (df : PriceTable) (t : String) :
    (calculate_metrics df t = none ↔ lookupKey t df = none) ∧
    (∀ f, lookupKey t df = some f →
      calculate_metrics df t = some (metricsOf f)) := by
  constructor
  · cases h : lookupKey t df with
    | none => simp [calculate_metrics, h]
    | some f => simp [calculate_metrics, h]
  · intro f hf
    simp [calculate_metrics, hf]

theorem calculate_metrics_notfound_w :
    calculate_metrics
      [("AAPL", (⟨[some 10, some 11], [("Open", [some 9, some 10])]⟩ :
        TickerFrame))] "ZZZZ" = none ∧
    calculate_metrics
      [("AAPL", (⟨[some 10, some 11], [("Open", [some 9, some 10])]⟩ :
        TickerFrame))] "AAPL" =
      some (metricsOf ⟨[some 10, some 11], [("Open", [some 9, some 10])]⟩) := by
  constructor
  · exact (calculate_metrics_notfound _ _).1.mpr (by simp [lookupKey])
  · exact (calculate_metrics_notfound _ _).2 _ (by simp [lookupKey])

/-- C10: for a present ticker the result frame keeps the input sub-frame's
columns (`Close` and the other input columns) unchanged, adds exactly the
four derived columns, each over the same date index (same row count as
the input sub-table); the function reads only its own copy of the input,
which is left unmodified. -/
theorem calculate_metrics_frame (df : PriceTable) (t : String)
    (f : TickerFrame) (h : lookupKey t df = some f) :
    calculate_metrics df t = some (metricsOf f) ∧
    (metricsOf f).close = f.close ∧
    (metricsOf f).otherCols = f.otherCols ∧
    (metricsOf f).dailyReturn.length = f.close.length ∧
    (metricsOf f).volatility.length = f.close.length ∧
    (metricsOf f).sma50.length = f.close.length ∧
    (metricsOf f).sma200.length = f.close.length := by
  refine ⟨by simp [calculate_metrics, h], rfl, rfl, pct_change_length _, ?_,
    rolling_mean_length _ _, rolling_mean_length _ _⟩
  show ((rolling_std 21 (pct_change f.close)).map _).length = _
  rw [List.length_map, rolling_std_length, pct_change_length]

theorem calculate_metrics_frame_w :
    calculate_metrics
        [("MSFT", (⟨[some 3, some 4, some 5], [("High", [some 6, some 7, some 8])]⟩ :
          TickerFrame))] "MSFT" =
      some (metricsOf ⟨[some 3, some 4, some 5], [("High", [some 6, some 7, some 8])]⟩) ∧
    (metricsOf (⟨[some 3, some 4, some 5], [("High", [some 6, some 7, some 8])]⟩ :
      TickerFrame)).close = [some 3, some 4, some 5] ∧
    (metricsOf (⟨[some 3, some 4, some 5], [("High", [some 6, some 7, some 8])]⟩ :
      TickerFrame)).otherCols = [("High", [some 6, some 7, some 8])] ∧
    (metricsOf (⟨[some 3, some 4, some 5], [("High", [some 6, some 7, some 8])]⟩ :
      TickerFrame)).dailyReturn.length = 3 ∧
    (metricsOf (⟨[some 3, some 4, some 5], [("High", [some 6, some 7, some 8])]⟩ :
      TickerFrame)).volatility.length = 3 ∧
    (metricsOf (⟨[some 3, some 4, some 5], [("High", [some 6, some 7, some 8])]⟩ :
      TickerFrame)).sma50.length = 3 ∧
    (metricsOf (⟨[some 3, some 4, some 5], [("High", [some 6, some 7, some 8])]⟩ :
      TickerFrame)).sma200.length = 3 :=
  calculate_metrics_frame _ "MSFT" _ (by simp [lookupKey])

/-- C8: for a present ticker with fully-defined close series `[p0..pn]`,
the derived daily return at index `i ≥ 1` is exactly
`p[i] / p[i-1] - 1`, and the return at index 0 is the distinguished
missing value (NaN), not zero. -/
theorem daily_return_formula (df : PriceTable) (t : String) (f : TickerFrame)
    (ps : List ℚ) (h : lookupKey t df = some f) (hc : f.close = ps.map some) :
    calculate_metrics df t = some (metricsOf f) ∧
    (0 < ps.length → (metricsOf f).dailyReturn.get? 0 = some none) ∧
    (∀ i, i + 1 < ps.length →
      (metricsOf f).dailyReturn.get? (i + 1) =
        some (some (ps.getD (i + 1) 0 / ps.getD i 0 - 1))) := by
  refine ⟨by simp [calculate_metrics, h], ?_, ?_⟩
  · intro hp
    show (pct_change f.close).get? 0 = some none
    apply pct_change_get?_zero
    rw [hc, List.length_map]
    exact hp
  · intro i hi
    show (pct_change f.close).get? (i + 1) = _
    have ha : f.close.get? i = some (some (ps.getD i 0)) := by
      rw [hc, List.get?_map, get?_getD ps i (by omega)]
      rfl
    have hb : f.close.get? (i + 1) = some (some (ps.getD (i + 1) 0)) := by
      rw [hc, List.get?_map, get?_getD ps (i + 1) (by omega)]
      rfl
    rw [pct_change_get?_succ _ _ _ _ ha hb]
    rfl

theorem daily_return_formula_w :
    calculate_metrics [("NVDA", (⟨[some 4, some 6, some 3], []⟩ : TickerFrame))]
        "NVDA" =
      some (metricsOf ⟨[some 4, some 6, some 3], []⟩) ∧
    (metricsOf (⟨[some 4, some 6, some 3], []⟩ : TickerFrame)).dailyReturn.get? 0 =
      some none ∧
    (metricsOf (⟨[some 4, some 6, some 3], []⟩ : TickerFrame)).dailyReturn.get? 1 =
      some (some (([(4 : ℚ), 6, 3].getD 1 0) / ([(4 : ℚ), 6, 3].getD 0 0) - 1)) := by
  have H := daily_return_formula
    [("NVDA", (⟨[some 4, some 6, some 3], []⟩ : TickerFrame))] "NVDA"
    ⟨[some 4, some 6, some 3], []⟩ [4, 6, 3] (by simp [lookupKey]) rfl
  exact ⟨H.1, H.2.1 (by decide), H.2.2 0 (by decide)⟩

/-- C9: for a present ticker with fully-defined close series, the SMA-50
(resp. SMA-200) at position `i` is defined exactly when the full window
of 50 (resp. 200) closes ending at `i` is available (`w ≤ i + 1`), and
then equals the unweighted mean of the most recent 50 (resp. 200)
closes; otherwise it is the missing value. -/
theorem sma_window_spec (df : PriceTable) (t : String) (f : TickerFrame)
    (ps : List ℚ) (i : Nat) (h : lookupKey t df = some f)
    (hc : f.close = ps.map some) (hi : i < ps.length) :
    (metricsOf f).sma50.get? i =
      some (if 50 ≤ i + 1 then some (mean ((ps.drop (i + 1 - 50)).take 50))
        else none) ∧
    (metricsOf f).sma200.get? i =
      some (if 200 ≤ i + 1 then some (mean ((ps.drop (i + 1 - 200)).take 200))
        else none) := by
  exact ⟨sma_get? 50 f ps i hc hi, sma_get? 200 f ps i hc hi⟩

theorem sma_window_spec_w :
    (metricsOf (⟨List.replicate 60 (some (2 : ℚ)), []⟩ : TickerFrame)).sma50.get? 59 =
      some (some (mean (((List.replicate 60 (2 : ℚ)).drop (59 + 1 - 50)).take 50))) ∧
    (metricsOf (⟨List.replicate 60 (some (2 : ℚ)), []⟩ : TickerFrame)).sma200.get? 59 =
      some none := by
  have H := sma_window_spec
    [("AMD", (⟨List.replicate 60 (some (2 : ℚ)), []⟩ : TickerFrame))] "AMD"
    ⟨List.replicate 60 (some (2 : ℚ)), []⟩ (List.replicate 60 (2 : ℚ)) 59
    (by simp [lookupKey]) (by rw [List.map_replicate])
    (by rw [List.length_replicate]; omega)
  exact H

/-- C4: for a present ticker, the volatility at position `i` carries a
value exactly when the trailing 21-observation window of daily returns
ending at and including `i` is fully defined, and that value is the
sample standard deviation with divisor 21 − 1 = 20 of those 21 returns,
multiplied by √252; otherwise the cell is the missing value. -/
theorem volatility_spec (df : PriceTable) (t : String) (f : TickerFrame)
    (i : Nat) (h : lookupKey t df = some f) (hi : i < f.close.length) :
    (metricsOf f).volatility.get? i =
      some ((windowAt (pct_change f.close) 21 i).map
        (fun rs => Real.sqrt ((ssd rs / 20 : ℚ) : ℝ) * Real.sqrt 252)) ∧
    ((windowAt (pct_change f.close) 21 i).isSome ↔
      21 ≤ i + 1 ∧
        ∀ o ∈ ((pct_change f.close).drop (i + 1 - 21)).take 21, o.isSome) := by
  constructor
  · rw [volatility_get? f i hi]
    cases hw : windowAt (pct_change f.close) 21 i with
    | none => rfl
    | some rs =>
      have hlen : rs.length = 21 := windowAt_length _ _ _ _ hw
      show some (some (sampleStd rs * Real.sqrt 252)) = _
      have hstd : sampleStd rs = Real.sqrt ((ssd rs / 20 : ℚ) : ℝ) := by
        rw [sampleStd, sampleVar, hlen]
        norm_num
      rw [hstd]
      rfl
  · rw [windowAt]
    by_cases h21 : 21 ≤ i + 1
    · rw [if_pos ⟨h21, by rw [pct_change_length]; exact hi⟩,
        seqOpt_isSome_iff]
      simp [h21]
    · rw [if_neg (fun hcl => h21 hcl.1)]
      simp [h21]

theorem volatility_spec_w :
    (metricsOf (⟨List.replicate 30 (some (1 : ℚ)), []⟩ : TickerFrame)).volatility.get? 25 =
      some ((windowAt (pct_change (List.replicate 30 (some (1 : ℚ)))) 21 25).map
        (fun rs => Real.sqrt ((ssd rs / 20 : ℚ) : ℝ) * Real.sqrt 252)) ∧
    ((windowAt (pct_change (List.replicate 30 (some (1 : ℚ)))) 21 25).isSome ↔
      21 ≤ 25 + 1 ∧
        ∀ o ∈ ((pct_change (List.replicate 30 (some (1 : ℚ)))).drop (25 + 1 - 21)).take 21,
          o.isSome) := by
  have H := volatility_spec
    [("TSLA", (⟨List.replicate 30 (some (1 : ℚ)), []⟩ : TickerFrame))] "TSLA"
    ⟨List.replicate 30 (some (1 : ℚ)), []⟩ 25 (by simp [lookupKey])
    (by rw [List.length_replicate]; omega)
  exact H

theorem corrEntry_none_left (xs ys : List ℚ) (h : ssd xs = 0) :
    corrEntry xs ys = none := by
  rw [corrEntry, if_neg]
  exact fun hc => hc.1 h

/-- C5: the correlation engine retains exactly the row indices at which
every included ticker's return column has a defined value; every present
universe ticker contributes the `pct_change` of its own close column;
and each matrix entry is the Pearson correlation coefficient of the two
columns restricted to the retained rows. -/
theorem correlation_alignment (df : PriceTable) (tickers : List String)
    (hnd : tickers.Nodup) :
    (∀ t f, t ∈ tickers → lookupKey t df = some f →
      lookupKey t (buildReturnCols df tickers []) =
        some (pct_change f.close)) ∧
    (∀ i, i ∈ retainedIdx (buildReturnCols df tickers []) ↔
      i < nRows (buildReturnCols df tickers []) ∧
        ∀ c ∈ buildReturnCols df tickers [], (cell c.2 i).isSome) ∧
    (∀ i j ci cj, (buildReturnCols df tickers []).get? i = some ci →
      (buildReturnCols df tickers []).get? j = some cj →
      (calculate_correlation df tickers).entry i j =
        pearson (restrictCol (buildReturnCols df tickers []) ci.2)
          (restrictCol (buildReturnCols df tickers []) cj.2)) := by
  have hbuild := buildReturnCols_eq df tickers [] hnd (fun t _ => rfl)
  rw [List.nil_append] at hbuild
  refine ⟨?_, fun i => mem_retainedIdx _ i, ?_⟩
  · intro t f hmem hdf
    rw [hbuild]
    exact lookup_filterMap df tickers t f hmem hdf
  · intro i j ci cj hi hj
    rw [corr_entry_eq df tickers i j ci cj hi hj, corrEntry_eq_pearson]

theorem correlation_alignment_w :
    lookupKey "A"
        (buildReturnCols
          [("A", (⟨[some 1, some 2, some 4], []⟩ : TickerFrame)),
           ("B", (⟨[some 1, some 3, some 9], []⟩ : TickerFrame))] ["A", "B"] []) =
      some (pct_change [some 1, some 2, some 4]) ∧
    (1 ∈ retainedIdx
        (buildReturnCols
          [("A", (⟨[some 1, some 2, some 4], []⟩ : TickerFrame)),
           ("B", (⟨[some 1, some 3, some 9], []⟩ : TickerFrame))] ["A", "B"] []) ↔
      1 < nRows
          (buildReturnCols
            [("A", (⟨[some 1, some 2, some 4], []⟩ : TickerFrame)),
             ("B", (⟨[some 1, some 3, some 9], []⟩ : TickerFrame))] ["A", "B"] []) ∧
        ∀ c ∈ buildReturnCols
            [("A", (⟨[some 1, some 2, some 4], []⟩ : TickerFrame)),
             ("B", (⟨[some 1, some 3, some 9], []⟩ : TickerFrame))] ["A", "B"] [],
          (cell c.2 1).isSome) ∧
    (calculate_correlation
        [("A", (⟨[some 1, some 2, some 4], []⟩ : TickerFrame)),
         ("B", (⟨[some 1, some 3, some 9], []⟩ : TickerFrame))] ["A", "B"]).entry 0 1 =
      pearson
        (restrictCol
          (buildReturnCols
            [("A", (⟨[some 1, some 2, some 4], []⟩ : TickerFrame)),
             ("B", (⟨[some 1, some 3, some 9], []⟩ : TickerFrame))] ["A", "B"] [])
          (pct_change [some 1, some 2, some 4]))
        (restrictCol
          (buildReturnCols
            [("A", (⟨[some 1, some 2, some 4], []⟩ : TickerFrame)),
             ("B", (⟨[some 1, some 3, some 9], []⟩ : TickerFrame))] ["A", "B"] [])
          (pct_change [some 1, some 3, some 9])) := by
  have H := correlation_alignment
    [("A", (⟨[some 1, some 2, some 4], []⟩ : TickerFrame)),
     ("B", (⟨[some 1, some 3, some 9], []⟩ : TickerFrame))] ["A", "B"] (by decide)
  have hpA : pct_change [some 1, some 2, some 4] = [none, some 1, some 1] := by
    simp [pct_change, retDiv]
    norm_num
  have hpB : pct_change [some 1, some 3, some 9] = [none, some 2, some 2] := by
    simp [pct_change, retDiv]
    norm_num
  have hcols : buildReturnCols
      [("A", (⟨[some 1, some 2, some 4], []⟩ : TickerFrame)),
       ("B", (⟨[some 1, some 3, some 9], []⟩ : TickerFrame))] ["A", "B"] [] =
      [("A", [none, some 1, some 1]), ("B", [none, some 2, some 2])] := by
    simp [buildReturnCols, lookupKey, upsertCol, pct_change, retDiv]
    norm_num
  refine ⟨H.1 "A" ⟨[some 1, some 2, some 4], []⟩ (by simp)
    (by simp [lookupKey]), H.2.1 1, ?_⟩
  refine H.2.2 0 1 ("A", pct_change [some 1, some 2, some 4])
    ("B", pct_change [some 1, some 3, some 9]) ?_ ?_
  · rw [hcols, hpA]
    rfl
  · rw [hcols, hpB]
    rfl

/-- C6 (amended): the produced matrix is symmetric; every entry that
carries a numeric value lies in [-1, 1]; and a diagonal entry equals
exactly 1.0 whenever the ticker's retained return series has nonzero
squared deviation — when the retained series is constant or has fewer
than two rows the diagonal entry is NaN instead. -/
theorem corr_matrix_props (df : PriceTable) (tickers : List String)
    (i j : Nat) :
    (calculate_correlation df tickers).entry i j =
      (calculate_correlation df tickers).entry j i ∧
    (∀ v, (calculate_correlation df tickers).entry i j = some v →
      -1 ≤ v ∧ v ≤ 1) ∧
    (∀ ci, (buildReturnCols df tickers []).get? i = some ci →
      ssd (restrictCol (buildReturnCols df tickers []) ci.2) ≠ 0 →
      (calculate_correlation df tickers).entry i i = some 1) := by
  refine ⟨corr_entry_symm_all df tickers i j, ?_, ?_⟩
  · intro v hv
    simp only [calculate_correlation] at hv
    cases hgi : (buildReturnCols df tickers []).get? i with
    | none =>
      rw [hgi] at hv
      cases hgj : (buildReturnCols df tickers []).get? j <;>
        rw [hgj] at hv <;> exact absurd hv (by simp)
    | some ci =>
      rw [hgi] at hv
      cases hgj : (buildReturnCols df tickers []).get? j with
      | none =>
        rw [hgj] at hv
        exact absurd hv (by simp)
      | some cj =>
        rw [hgj] at hv
        exact corrEntry_bound _ _ v hv
  · intro ci hci hssd
    rw [corr_entry_eq df tickers i i ci ci hci hci]
    exact corrEntry_diag _ hssd

/-- C6 counterexample: a produced matrix (single included ticker with a
constant close series) whose diagonal entry is NaN, not 1.0. -/
theorem corr_diag_nan :
    (calculate_correlation
      [("A", (⟨[some 2, some 2, some 2], []⟩ : TickerFrame))] ["A"]).names =
      ["A"] ∧
    (calculate_correlation
      [("A", (⟨[some 2, some 2, some 2], []⟩ : TickerFrame))] ["A"]).entry 0 0 =
      none := by
  have hcols : buildReturnCols
      [("A", (⟨[some 2, some 2, some 2], []⟩ : TickerFrame))] ["A"] [] =
      [("A", [none, some 0, some 0])] := by
    simp [buildReturnCols, lookupKey, upsertCol, pct_change, retDiv]
  constructor
  · show (buildReturnCols _ _ _).map _ = _
    rw [hcols]
    rfl
  · have hr : restrictCol [("A", ([none, some 0, some 0] : Col))]
        [none, some 0, some 0] = [0, 0] := by
      simp [restrictCol, retainedIdx, nRows, rowDefinedAt, cell,
        List.range_succ]
    simp only [calculate_correlation]
    rw [hcols]
    simp only [List.get?]
    rw [hr]
    exact corrEntry_none_left _ _ (by norm_num [ssd, devs, mean])

theorem corr_matrix_props_w :
    (calculate_correlation
        [("A", (⟨[some 1, some 2, some 1, some 2], []⟩ : TickerFrame)),
         ("B", (⟨[some 1, some 2, some 1, some 2], []⟩ : TickerFrame))]
        ["A", "B"]).entry 0 1 =
      (calculate_correlation
        [("A", (⟨[some 1, some 2, some 1, some 2], []⟩ : TickerFrame)),
         ("B", (⟨[some 1, some 2, some 1, some 2], []⟩ : TickerFrame))]
        ["A", "B"]).entry 1 0 ∧
    (-1 ≤ (1 : ℝ) ∧ (1 : ℝ) ≤ 1) ∧
    (calculate_correlation
        [("A", (⟨[some 1, some 2, some 1, some 2], []⟩ : TickerFrame)),
         ("B", (⟨[some 1, some 2, some 1, some 2], []⟩ : TickerFrame))]
        ["A", "B"]).entry 0 0 = some 1 := by
  have H := corr_matrix_props
    [("A", (⟨[some 1, some 2, some 1, some 2], []⟩ : TickerFrame)),
     ("B", (⟨[some 1, some 2, some 1, some 2], []⟩ : TickerFrame))]
    ["A", "B"] 0 1
  have hcols : buildReturnCols
      [("A", (⟨[some 1, some 2, some 1, some 2], []⟩ : TickerFrame)),
       ("B", (⟨[some 1, some 2, some 1, some 2], []⟩ : TickerFrame))]
      ["A", "B"] [] =
      [("A", [none, some 1, some (-(1/2)), some 1]),
       ("B", [none, some 1, some (-(1/2)), some 1])] := by
    simp [buildReturnCols, lookupKey, upsertCol, pct_change, retDiv]
    norm_num
  have hr : restrictCol
      [("A", ([none, some 1, some (-(1/2)), some 1] : Col)),
       ("B", [none, some 1, some (-(1/2)), some 1])]
      [none, some 1, some (-(1/2)), some 1] = [1, -(1/2), 1] := by
    simp [restrictCol, retainedIdx, nRows, rowDefinedAt, cell,
      List.range_succ]
  have hssd : ssd [1, -(1/2), 1] ≠ 0 := by
    norm_num [ssd, devs, mean]
  have hE : (calculate_correlation
      [("A", (⟨[some 1, some 2, some 1, some 2], []⟩ : TickerFrame)),
       ("B", (⟨[some 1, some 2, some 1, some 2], []⟩ : TickerFrame))]
      ["A", "B"]).entry 0 1 = some 1 := by
    rw [corr_entry_eq _ _ 0 1 ("A", [none, some 1, some (-(1/2)), some 1])
      ("B", [none, some 1, some (-(1/2)), some 1])
      (by rw [hcols]; rfl) (by rw [hcols]; rfl)]
    rw [hcols, hr]
    exact corrEntry_diag _ hssd
  refine ⟨H.1, H.2.1 1 hE, ?_⟩
  exact H.2.2 ("A", [none, some 1, some (-(1/2)), some 1])
    (by rw [hcols]; rfl) (by rw [hcols, hr]; exact hssd)

/-- C7 (amended): the matrix axes are exactly the universe tickers
present in the table, in universe order — absent tickers are skipped
silently, so the dimension is the present-ticker count (0×0 with zero
present tickers); with exactly one present ticker the matrix is 1×1 and
its sole entry is 1.0 whenever the ticker's retained return series has
nonzero squared deviation (it is NaN when that series is constant or has
fewer than two rows). -/
theorem corr_dimension (df : PriceTable) (tickers : List String)
    (hnd : tickers.Nodup) :
    (calculate_correlation df tickers).names =
      tickers.filter (fun t => (lookupKey t df).isSome) ∧
    (calculate_correlation df tickers).names.length =
      (tickers.filter (fun t => (lookupKey t df).isSome)).length ∧
    ((∀ t ∈ tickers, lookupKey t df = none) →
      (calculate_correlation df tickers).names = []) ∧
    (∀ t f, tickers.filter (fun u => (lookupKey u df).isSome) = [t] →
      lookupKey t df = some f →
      (calculate_correlation df tickers).names = [t] ∧
      (ssd (restrictCol (buildReturnCols df tickers [])
          (pct_change f.close)) ≠ 0 →
        (calculate_correlation df tickers).entry 0 0 = some 1)) := by
  have hbuild := buildReturnCols_eq df tickers [] hnd (fun t _ => rfl)
  rw [List.nil_append] at hbuild
  have hnames : (calculate_correlation df tickers).names =
      tickers.filter (fun t => (lookupKey t df).isSome) := by
    show (buildReturnCols df tickers []).map (fun c => c.1) = _
    rw [hbuild, filterMap_keys]
  refine ⟨hnames, by rw [hnames], ?_, ?_⟩
  · intro hall
    rw [hnames]
    exact List.filter_eq_nil_iff.mpr (fun t ht => by simp [hall t ht])
  · intro t f hfilter hdf
    have hnames2 : (calculate_correlation df tickers).names = [t] := by
      rw [hnames, hfilter]
    refine ⟨hnames2, ?_⟩
    intro hssd
    have hkeys : (buildReturnCols df tickers []).map (fun c => c.1) = [t] :=
      hnames2
    have htmem : t ∈ tickers := by
      have hmem : t ∈ tickers.filter (fun u => (lookupKey u df).isSome) := by
        rw [hfilter]
        exact List.mem_singleton.mpr rfl
      exact (List.mem_filter.mp hmem).1
    have hlook : lookupKey t (buildReturnCols df tickers []) =
        some (pct_change f.close) := by
      rw [hbuild]
      exact lookup_filterMap df tickers t f htmem hdf
    cases hcols : buildReturnCols df tickers [] with
    | nil =>
      rw [hcols] at hkeys
      simp at hkeys
    | cons c rest =>
      rw [hcols] at hkeys
      have hc1 : c.1 = t ∧ rest.map (fun c => c.1) = [] := by
        simpa using hkeys
      have hrest : rest = [] := List.map_eq_nil_iff.mp hc1.2
      rw [hcols, hrest, lookupKey, if_pos hc1.1] at hlook
      have hc2 : c.2 = pct_change f.close := Option.some.inj hlook
      have h0 : (buildReturnCols df tickers []).get? 0 = some c := by
        rw [hcols]
        rfl
      rw [corr_entry_eq df tickers 0 0 c c h0 h0, hc2]
      exact corrEntry_diag _ hssd

/-- C7 counterexample: one present ticker whose close series is constant
— the matrix is 1×1 as claimed, but its sole entry is NaN, not the
claimed value 1.0. -/
theorem corr_single_const_not_one :
    (calculate_correlation
      [("A", (⟨[some 1, some 1, some 1], []⟩ : TickerFrame))] ["A"]).names.length =
      1 ∧
    ¬ ((calculate_correlation
      [("A", (⟨[some 1, some 1, some 1], []⟩ : TickerFrame))] ["A"]).entry 0 0 =
      some 1) := by
  have hcols : buildReturnCols
      [("A", (⟨[some 1, some 1, some 1], []⟩ : TickerFrame))] ["A"] [] =
      [("A", [none, some 0, some 0])] := by
    simp [buildReturnCols, lookupKey, upsertCol, pct_change, retDiv]
  have hr : restrictCol [("A", ([none, some 0, some 0] : Col))]
      [none, some 0, some 0] = [0, 0] := by
    simp [restrictCol, retainedIdx, nRows, rowDefinedAt, cell,
      List.range_succ]
  constructor
  · show ((buildReturnCols _ _ _).map _).length = 1
    rw [hcols]
    rfl
  · have hE : (calculate_correlation
        [("A", (⟨[some 1, some 1, some 1], []⟩ : TickerFrame))] ["A"]).entry 0 0 =
        none := by
      simp only [calculate_correlation]
      rw [hcols]
      simp only [List.get?]
      rw [hr]
      exact corrEntry_none_left _ _ (by norm_num [ssd, devs, mean])
    rw [hE]
    simp

theorem corr_dimension_w :
    (calculate_correlation
        [("A", (⟨[some 1, some 2, some 1, some 2], []⟩ : TickerFrame))]
        ["A", "ZZ"]).names =
      ["A", "ZZ"].filter (fun t => (lookupKey t
        [("A", (⟨[some 1, some 2, some 1, some 2], []⟩ : TickerFrame))]).isSome) ∧
    (calculate_correlation
        [("A", (⟨[some 1, some 2, some 1, some 2], []⟩ : TickerFrame))]
        ["A", "ZZ"]).names.length =
      (["A", "ZZ"].filter (fun t => (lookupKey t
        [("A", (⟨[some 1, some 2, some 1, some 2], []⟩ : TickerFrame))]).isSome)).length ∧
    (calculate_correlation
        [("A", (⟨[some 1, some 2, some 1, some 2], []⟩ : TickerFrame))]
        ["A", "ZZ"]).names = ["A"] ∧
    (calculate_correlation
        [("A", (⟨[some 1, some 2, some 1, some 2], []⟩ : TickerFrame))]
        ["A", "ZZ"]).entry 0 0 = some 1 := by
  have H := corr_dimension
    [("A", (⟨[some 1, some 2, some 1, some 2], []⟩ : TickerFrame))]
    ["A", "ZZ"] (by decide)
  have hfilter : ["A", "ZZ"].filter (fun u => (lookupKey u
      [("A", (⟨[some 1, some 2, some 1, some 2], []⟩ : TickerFrame))]).isSome) =
      ["A"] := by
    simp [lookupKey]
  have hdf : lookupKey "A"
      [("A", (⟨[some 1, some 2, some 1, some 2], []⟩ : TickerFrame))] =
      some ⟨[some 1, some 2, some 1, some 2], []⟩ := by
    simp [lookupKey]
  have H2 := H.2.2.2 "A" ⟨[some 1, some 2, some 1, some 2], []⟩ hfilter hdf
  have hcols : buildReturnCols
      [("A", (⟨[some 1, some 2, some 1, some 2], []⟩ : TickerFrame))]
      ["A", "ZZ"] [] =
      [("A", [none, some 1, some (-(1/2)), some 1])] := by
    simp [buildReturnCols, lookupKey, upsertCol, pct_change, retDiv]
    norm_num
  have hp : pct_change [some 1, some 2, some 1, some 2] =
      [none, some 1, some (-(1/2)), some 1] := by
    simp [pct_change, retDiv]
    norm_num
  have hr : restrictCol
      [("A", ([none, some 1, some (-(1/2)), some 1] : Col))]
      [none, some 1, some (-(1/2)), some 1] = [1, -(1/2), 1] := by
    simp [restrictCol, retainedIdx, nRows, rowDefinedAt, cell,
      List.range_succ]
  refine ⟨H.1, H.2.1, H2.1, H2.2 ?_⟩
  show ssd (restrictCol (buildReturnCols _ _ _) (pct_change _)) ≠ 0
  rw [hcols, hp, hr]
  norm_num [ssd, devs, mean]

/-- C2 (code behaviour at the failing input): with two included tickers
whose return series share no defined date, `dropna` retains zero rows,
yet `calculate_correlation` still returns an ordinary 2×2 matrix — every
entry of which is NaN — rather than any distinct insufficient-overlap
signal; `main` then renders this matrix as a heatmap unconditionally. -/
theorem correlation_empty_overlap_nan :
    retainedIdx (buildReturnCols
      [("A", (⟨[some 1, some 2, none, none], []⟩ : TickerFrame)),
       ("B", (⟨[none, none, some 1, some 2], []⟩ : TickerFrame))]
      ["A", "B"] []) = [] ∧
    (calculate_correlation
      [("A", (⟨[some 1, some 2, none, none], []⟩ : TickerFrame)),
       ("B", (⟨[none, none, some 1, some 2], []⟩ : TickerFrame))]
      ["A", "B"]).names = ["A", "B"] ∧
    (calculate_correlation
      [("A", (⟨[some 1, some 2, none, none], []⟩ : TickerFrame)),
       ("B", (⟨[none, none, some 1, some 2], []⟩ : TickerFrame))]
      ["A", "B"]).entry 0 0 = none ∧
    (calculate_correlation
      [("A", (⟨[some 1, some 2, none, none], []⟩ : TickerFrame)),
       ("B", (⟨[none, none, some 1, some 2], []⟩ : TickerFrame))]
      ["A", "B"]).entry 0 1 = none ∧
    (calculate_correlation
      [("A", (⟨[some 1, some 2, none, none], []⟩ : TickerFrame)),
       ("B", (⟨[none, none, some 1, some 2], []⟩ : TickerFrame))]
      ["A", "B"]).entry 1 0 = none ∧
    (calculate_correlation
      [("A", (⟨[some 1, some 2, none, none], []⟩ : TickerFrame)),
       ("B", (⟨[none, none, some 1, some 2], []⟩ : TickerFrame))]
      ["A", "B"]).entry 1 1 = none := by
  have hcols : buildReturnCols
      [("A", (⟨[some 1, some 2, none, none], []⟩ : TickerFrame)),
       ("B", (⟨[none, none, some 1, some 2], []⟩ : TickerFrame))]
      ["A", "B"] [] =
      [("A", [none, some 1, none, none]), ("B", [none, none, none, some 1])] := by
    simp [buildReturnCols, lookupKey, upsertCol, pct_change, retDiv]
    norm_num
  have hrA : restrictCol
      [("A", ([none, some 1, none, none] : Col)),
       ("B", [none, none, none, some 1])] [none, some 1, none, none] = [] := by
    simp [restrictCol, retainedIdx, nRows, rowDefinedAt, cell,
      List.range_succ]
  have hrB : restrictCol
      [("A", ([none, some 1, none, none] : Col)),
       ("B", [none, none, none, some 1])] [none, none, none, some 1] = [] := by
    simp [restrictCol, retainedIdx, nRows, rowDefinedAt, cell,
      List.range_succ]
  refine ⟨?_, ?_, ?_, ?_, ?_, ?_⟩
  · rw [hcols]
    simp [retainedIdx, nRows, rowDefinedAt, cell, List.range_succ]
  · show (buildReturnCols _ _ _).map _ = _
    rw [hcols]
    rfl
  · simp only [calculate_correlation]
    rw [hcols]
    simp only [List.get?]
    rw [hrA]
    exact corrEntry_none_left _ _ rfl
  · simp only [calculate_correlation]
    rw [hcols]
    simp only [List.get?]
    rw [hrA, hrB]
    exact corrEntry_none_left _ _ rfl
  · simp only [calculate_correlation]
    rw [hcols]
    simp only [List.get?]
    rw [hrA, hrB]
    exact corrEntry_none_left _ _ rfl
  · simp only [calculate_correlation]
    rw [hcols]
    simp only [List.get?]
    rw [hrB]
    exact corrEntry_none_left _ _ rfl

end VolDash
